import Mathlib

/-!
Verification development for the DNS_manager repository.

The Go sources are shallowly embedded:
* `config.go` — `Config`, `LoadConfig` (file system state abstracted into
  `ConfigFileState`).
* `ipchecker.go` — `isValidIPv4` (a faithful model of Go's `net.ParseIP`
  followed by `To4() != nil`, per Go ≥ 1.17 `netip` parsing rules),
  `getIPFromService`, `GetPublicIPWithService` (HTTP fetches abstracted into
  a `fetch` oracle).
* the Cloudflare client — `ListDNSRecords`, `GetAllDNSRecords`,
  `CreateDNSRecord`, `UpdateDNSRecord`, `UpdateOrCreateDNSRecord`: each HTTP
  round trip is abstracted into an oracle (`World`) indexed by the number of
  calls of that kind made so far, and every provider call is logged into a
  `CallLog` so that theorems can speak about which mutations a cycle issued.
* the reconciliation cycle `checkAndUpdate` from the main file, with the
  resolver likewise drawn from the `World` oracle and `time.Sleep`/logging
  (pure side effects) dropped.
-/

/-! ## Data model (`DNSRecord`, `Config`) -/

structure DNSRecord where
  id : String
  type : String
  name : String
  content : String
  ttl : Int
  proxied : Bool
deriving DecidableEq

structure Config where
  apiToken : String
  zoneID : String
  recordName : String
  recordType : String
deriving DecidableEq

/-! ## Cloudflare API responses

A provider HTTP round trip either fails at the transport level, returns a
non-200 status, returns undecodable JSON, or decodes to a payload carrying
the `success` flag, the `errors` list and the typed `result`. -/

structure CFError where
  code : Int
  message : String
deriving DecidableEq

inductive APIResp (α : Type) where
  | netErr (e : String)
  | httpErr (status : Int) (body : String)
  | badJSON (e : String)
  | payload (success : Bool) (errors : List CFError) (result : α)
deriving DecidableEq

/-- The `result` struct decoded by `UpdateDNSRecord` from a PUT response. -/
structure UpdateResult where
  id : String
  type : String
  name : String
  content : String
deriving DecidableEq

/-- Error-message concatenation used on `success:false` responses:
`"Code %d: %s; "` per provider error, in order. -/
def concatCFErrors (errors : List CFError) : String :=
  errors.foldl (fun acc e => acc ++ "Code " ++ toString e.code ++ ": " ++ e.message ++ "; ") ""

/-- Shared response handling of `ListDNSRecords`/`CreateDNSRecord`:
transport error, non-200 status, decode failure, `success:false`, or the
decoded result. -/
def apiResult {α : Type} : APIResp α → Except String α
  | .netErr e => .error ("请求失败: " ++ e)
  | .httpErr status body => .error ("API 返回错误 (状态码: " ++ toString status ++ "): " ++ body)
  | .badJSON e => .error ("解析响应失败: " ++ e)
  | .payload success errors result =>
    if success then .ok result else .error ("API 错误: " ++ concatCFErrors errors)

/-! ## Call oracles and call log -/

/-- One provider call, as recorded in the trace: a list, a create
(type, name, content, ttl) or a PUT update (record id, type, name, content,
ttl). -/
inductive PCall where
  | list
  | create (recordType name content : String) (ttl : Int)
  | put (recordID recordType name content : String) (ttl : Int)
deriving DecidableEq

/-- The environment of one reconciliation cycle: the outcome of the nth
resolver query (`GetPublicIPWithService`), and of the nth list / create /
PUT provider call. -/
structure World where
  resolves : Nat → Except String (String × String)
  lists : Nat → APIResp (List DNSRecord)
  creates : Nat → APIResp DNSRecord
  puts : Nat → APIResp UpdateResult

structure CallLog where
  resolveCount : Nat
  listCount : Nat
  createCount : Nat
  putCount : Nat
  calls : List PCall
deriving DecidableEq

def emptyLog : CallLog := ⟨0, 0, 0, 0, []⟩

def bumpResolve (g : CallLog) : CallLog :=
  { g with resolveCount := g.resolveCount + 1 }

def logList (g : CallLog) : CallLog :=
  { g with listCount := g.listCount + 1, calls := g.calls ++ [PCall.list] }

def logCreate (g : CallLog) (c : PCall) : CallLog :=
  { g with createCount := g.createCount + 1, calls := g.calls ++ [c] }

def logPut (g : CallLog) (c : PCall) : CallLog :=
  { g with putCount := g.putCount + 1, calls := g.calls ++ [c] }

/-! ## Record Store Client (the Cloudflare client functions) -/

/-- `ListDNSRecords(zoneID, recordName)`: one GET, all records at the name
regardless of type. -/
def ListDNSRecords (w : World) (g : CallLog) :
    Except String (List DNSRecord) × CallLog :=
  (apiResult (w.lists g.listCount), logList g)

/-- `GetAllDNSRecords(zoneID, recordName, recordType)`: list, then keep the
records whose `Type` matches. -/
def GetAllDNSRecords (w : World) (cfg : Config) (g : CallLog) :
    Except String (List DNSRecord) × CallLog :=
  (match apiResult (w.lists g.listCount) with
    | .error e => .error ("查找DNS记录失败: " ++ e)
    | .ok records => .ok (records.filter (fun r => r.type = cfg.recordType)),
   logList g)

/-- `CreateDNSRecord(zoneID, recordName, recordType, content, ttl)`:
one POST with the given type/name/content/ttl. -/
def CreateDNSRecord (w : World) (cfg : Config) (content : String) (ttl : Int)
    (g : CallLog) : Except String DNSRecord × CallLog :=
  (apiResult (w.creates g.createCount),
   logCreate g (PCall.create cfg.recordType cfg.recordName content ttl))

/-- `UpdateDNSRecord(zoneID, recordName, recordType, content)`: re-list all
records at the name, pick the FIRST record of the matching type, skip if its
content already equals `content`, otherwise PUT the new content with that
record's TTL and verify the echoed content. -/
def UpdateDNSRecord (w : World) (cfg : Config) (content : String)
    (g : CallLog) : Except String Unit × CallLog :=
  match ListDNSRecords w g with
  | (.error e, g1) => (.error ("查找DNS记录失败: " ++ e), g1)
  | (.ok records, g1) =>
    if records = [] then (.error ("未找到匹配的DNS记录: " ++ cfg.recordName), g1)
    else
      match records.find? (fun r => r.type = cfg.recordType) with
      | none => (.error ("未找到类型为 " ++ cfg.recordType ++ " 的DNS记录"), g1)
      | some target =>
        if target.content = content then (.ok (), g1)
        else
          let g2 := logPut g1 (PCall.put target.id cfg.recordType cfg.recordName content target.ttl)
          match w.puts g1.putCount with
          | .netErr e => (.error ("请求失败: " ++ e), g2)
          | .httpErr status body =>
            (.error ("API 返回错误 (状态码: " ++ toString status ++ "): " ++ body), g2)
          | .badJSON e => (.error ("解析响应失败: " ++ e), g2)
          | .payload success errors result =>
            if success then
              if result.content ≠ content then
                (.error ("DNS记录更新后内容不匹配: 期望 " ++ content ++ "，实际 " ++ result.content), g2)
              else (.ok (), g2)
            else (.error ("API 错误: " ++ concatCFErrors errors), g2)

/-- `UpdateOrCreateDNSRecord(zoneID, recordName, recordType, content, ttl, oldIP)`:
create when the (type-filtered) list fails or is empty; no-op when some
record already has `content`; when `oldIP` is non-empty and some record has
`oldIP` as content, call `UpdateDNSRecord`; otherwise create. -/
def UpdateOrCreateDNSRecord (w : World) (cfg : Config) (content : String)
    (ttl : Int) (oldIP : String) (g : CallLog) : Except String Unit × CallLog :=
  match GetAllDNSRecords w cfg g with
  | (.error _, g1) =>
    let (r, g2) := CreateDNSRecord w cfg content ttl g1
    (r.map (fun _ => ()), g2)
  | (.ok records, g1) =>
    if records = [] then
      let (r, g2) := CreateDNSRecord w cfg content ttl g1
      (r.map (fun _ => ()), g2)
    else if records.any (fun r => r.content = content) then (.ok (), g1)
    else if oldIP ≠ "" ∧ records.any (fun r => r.content = oldIP) then
      UpdateDNSRecord w cfg content g1
    else
      let (r, g2) := CreateDNSRecord w cfg content ttl g1
      (r.map (fun _ => ()), g2)

/-! ## The reconciliation cycle (`checkAndUpdate`) -/

/-- One `GetPublicIPWithService()` call inside the cycle, drawn from the
oracle at the current resolver-call index. -/
def resolveOnce (w : World) (g : CallLog) :
    Except String (String × String) × CallLog :=
  (w.resolves g.resolveCount, bumpResolve g)

/-- The `maxRetries` resolution loop at the top of `checkAndUpdate`: up to
`n` attempts, stopping at the first success. -/
def resolveAttempts (w : World) : CallLog → Nat → Except String (String × String) × CallLog
  | g, 0 => (.error "", g)
  | g, n + 1 =>
    match w.resolves g.resolveCount with
    | .ok v => (.ok v, bumpResolve g)
    | .error e => if n = 0 then (.error e, bumpResolve g) else resolveAttempts w (bumpResolve g) n

/-- `defaultTTL` computation in `checkAndUpdate`: the first record's TTL if
any record is present, else 3600. -/
def defaultTTLOf : List DNSRecord → Int
  | [] => 3600
  | r :: _ => r.ttl

/-- The mutation retry loop of `checkAndUpdate`: up to `n` attempts of
`UpdateOrCreateDNSRecord`, stopping at the first success; returns whether
some attempt succeeded. -/
def mutateRetry (w : World) (cfg : Config) (content : String) (ttl : Int)
    (oldIP : String) : CallLog → Nat → Bool × CallLog
  | g, 0 => (false, g)
  | g, n + 1 =>
    match UpdateOrCreateDNSRecord w cfg content ttl oldIP g with
    | (.ok _, g1) => (true, g1)
    | (.error _, g1) => mutateRetry w cfg content ttl oldIP g1 n

/-- Tail of `checkAndUpdate` once a changed address is confirmed and no
existing record already carries it: compute `defaultTTL` from the inspected
records, run the mutation retry loop, and on success re-list for
verification (the verification outcome is only logged) and set `currentIP`
to the new address; on failure leave `currentIP` unchanged. -/
def mutatePhase (w : World) (cfg : Config) (currentIP ip : String)
    (allRecords : List DNSRecord) (g : CallLog) : String × CallLog :=
  match mutateRetry w cfg ip (defaultTTLOf allRecords) currentIP g 3 with
  | (true, g1) => (ip, (GetAllDNSRecords w cfg g1).2)
  | (false, g1) => (currentIP, g1)

/-- `checkAndUpdate()`: resolve (3 attempts), no-op short circuit when the
address equals `currentIP`, confirmation re-resolve, inspection of the live
records, then mutation via `mutatePhase`. Returns the new `currentIP` and
the log of provider calls made. -/
def checkAndUpdate (w : World) (cfg : Config) (currentIP : String) :
    String × CallLog :=
  match resolveAttempts w emptyLog 3 with
  | (.error _, g) => (currentIP, g)
  | (.ok (ip, _svc), g) =>
    if ip = currentIP then (currentIP, g)
    else
      match resolveOnce w g with
      | (.error _, g1) => (currentIP, g1)
      | (.ok (confirmIP, _svc2), g1) =>
        if confirmIP ≠ ip then (currentIP, g1)
        else
          match GetAllDNSRecords w cfg g1 with
          | (.ok recs, g2) =>
            if recs.any (fun r => r.content = ip) then (ip, g2)
            else mutatePhase w cfg currentIP ip recs g2
          | (.error _, g2) => mutatePhase w cfg currentIP ip [] g2

/-! ## Address Resolver (`ipchecker.go`)

`isValidIPv4` is `net.ParseIP(strings.TrimSpace(ip))` followed by
`To4() != nil`.  `net.ParseIP` (Go ≥ 1.17) follows the `netip.ParseAddr`
grammar — dotted-quad IPv4 with 1–3 digit octets ≤ 255 and no leading
zeros, or full IPv6 with `::` compression, optional embedded trailing
IPv4, and no zone — and `To4` is non-nil exactly on 4-byte results and
16-byte results with the IPv4-mapped prefix (10 zero bytes then
`0xff 0xff`). -/

/-- `unicode.IsSpace`, as used by `strings.TrimSpace`. -/
def goIsSpace (c : Char) : Bool :=
  c == ' ' || c == '\t' || c == '\n' || c == '\u000B' || c == '\u000C' || c == '\r' ||
  c == '\u0085' || c == '\u00A0' || c == '\u1680' ||
  (decide ('\u2000' ≤ c) && decide (c ≤ '\u200A')) ||
  c == '\u2028' || c == '\u2029' || c == '\u202F' || c == '\u205F' || c == '\u3000'

/-- `strings.TrimSpace`: drop leading and trailing white space. -/
def trimSpace (s : String) : String :=
  String.mk (((s.data.dropWhile goIsSpace).reverse.dropWhile goIsSpace).reverse)

/-- `parseIPv4Fields` of `net/netip`: dotted decimal fields, each 1–3
digits, value ≤ 255, no leading zero; exactly 4 fields.  The accumulator
carries the current octet value, its digit count, the number of dots seen
and the completed fields (reversed). -/
def parseV4Fields : List Char → Nat → Nat → Nat → List Nat → Option (List Nat)
  | [], val, _digLen, pos, acc =>
    if pos < 3 then none else some ((val :: acc).reverse)
  | c :: rest, val, digLen, pos, acc =>
    if '0' ≤ c ∧ c ≤ '9' then
      if digLen = 1 ∧ val = 0 then none
      else
        let val1 := val * 10 + (c.toNat - '0'.toNat)
        if val1 > 255 then none
        else if digLen + 1 > 3 then none
        else parseV4Fields rest val1 (digLen + 1) pos acc
    else if c = '.' then
      if digLen = 0 ∨ rest = [] then none
      else if pos = 3 then none
      else parseV4Fields rest 0 0 (pos + 1) (val :: acc)
    else none

/-- `parseIPv4`: the 4 octets of a dotted-quad literal, if it is one. -/
def parseV4 (cs : List Char) : Option (List Nat) :=
  parseV4Fields cs 0 0 0 []

def isHexDigitGo (c : Char) : Bool :=
  (decide ('0' ≤ c) && decide (c ≤ '9')) ||
  (decide ('a' ≤ c) && decide (c ≤ 'f')) ||
  (decide ('A' ≤ c) && decide (c ≤ 'F'))

def hexVal (c : Char) : Nat :=
  if '0' ≤ c ∧ c ≤ '9' then c.toNat - '0'.toNat
  else if 'a' ≤ c ∧ c ≤ 'f' then c.toNat - 'a'.toNat + 10
  else c.toNat - 'A'.toNat + 10

/-- The main loop of `parseIPv6` (`net/netip`): while fewer than 16 bytes
are filled, read a hex group of 1–4 digits; a following `'.'` switches to an
embedded trailing IPv4 (allowed only after `::` or at byte 12, consuming the
rest of the string); otherwise the 16-bit group is appended and the loop
continues across `':'`, recording at most one `::`.  Result: the bytes
filled so far, their count, the `::` position if any, and the unconsumed
input.  `none` is a parse failure; the fuel (≥ 9 at entry) never runs out
because every iteration adds at least two bytes. -/
def v6Loop : Nat → List Char → List Nat → Nat → Option Nat →
    Option (List Nat × Nat × Option Nat × List Char)
  | 0, _, _, _, _ => none
  | fuel + 1, s, ip, i, ell =>
    if i < 16 then
      let ds := s.takeWhile isHexDigitGo
      let rest := s.dropWhile isHexDigitGo
      if ds = [] then none
      else if ds.length > 4 then none
      else
        let acc := ds.foldl (fun a c => a * 16 + hexVal c) 0
        if rest.head? = some '.' then
          if ell = none ∧ i ≠ 12 then none
          else if i + 4 > 16 then none
          else
            match parseV4 s with
            | none => none
            | some fields => some (ip ++ fields, i + 4, ell, [])
        else
          let ip1 := ip ++ [acc / 256, acc % 256]
          let i1 := i + 2
          match rest with
          | [] => some (ip1, i1, ell, [])
          | c :: rest1 =>
            if c ≠ ':' then none
            else
              match rest1 with
              | [] => none
              | ':' :: rest2 =>
                match ell with
                | some _ => none
                | none =>
                  match rest2 with
                  | [] => some (ip1, i1, some i1, [])
                  | _ => v6Loop fuel rest2 ip1 i1 (some i1)
              | _ => v6Loop fuel rest1 ip1 i1 ell
    else some (ip, i, ell, s)

/-- End of `parseIPv6`: the whole string must be consumed; fewer than 16
bytes require a `::` to expand to the missing zeros; a full 16 bytes
forbid `::`. -/
def v6Finish : Option (List Nat × Nat × Option Nat × List Char) → Option (List Nat)
  | none => none
  | some (ip, i, ell, s) =>
    if s ≠ [] then none
    else if i < 16 then
      match ell with
      | none => none
      | some e => some (ip.take e ++ List.replicate (16 - i) 0 ++ ip.drop e)
    else
      match ell with
      | some _ => none
      | none => some ip

/-- `parseIPv6` as used by `net.ParseIP`: zoned addresses (any `'%'`) are
rejected, a leading `::` may start the address (alone it denotes all
zeros), then the main loop and the final checks. -/
def parseIPv6Go (s0 : List Char) : Option (List Nat) :=
  if s0.contains '%' then none
  else
    match s0 with
    | c1 :: c2 :: rest =>
      if c1 = ':' ∧ c2 = ':' then
        if rest = [] then some (List.replicate 16 0)
        else v6Finish (v6Loop 9 rest [] 0 (some 0))
      else v6Finish (v6Loop 9 (c1 :: c2 :: rest) [] 0 none)
    | _ => v6Finish (v6Loop 9 s0 [] 0 none)

/-- A parsed `net.IP`: a 4-byte address from the IPv4 grammar or a 16-byte
address from the IPv6 grammar. -/
inductive GoIP where
  | v4 (bytes : List Nat)
  | v6 (bytes : List Nat)
deriving DecidableEq

/-- `ParseAddr` dispatch: the first of `'.'`, `':'`, `'%'` in the string
decides the branch; a string with none of them is not an address. -/
def firstSpecial (cs : List Char) : Option Char :=
  cs.find? (fun c => c == '.' || c == ':' || c == '%')

/-- `net.ParseIP`. -/
def goParseIP (s : String) : Option GoIP :=
  match firstSpecial s.data with
  | some c =>
    if c = '.' then (parseV4 s.data).map GoIP.v4
    else if c = ':' then (parseIPv6Go s.data).map GoIP.v6
    else none
  | none => none

/-- `net.IP.To4`: the 4-byte form, available for 4-byte addresses and for
16-byte addresses with the IPv4-mapped prefix. -/
def To4 : GoIP → Option (List Nat)
  | .v4 b => some b
  | .v6 b =>
    if b.take 10 = List.replicate 10 0 ∧ b.get? 10 = some 255 ∧ b.get? 11 = some 255
    then some (b.drop 12) else none

/-- `isValidIPv4` from `ipchecker.go`: trim, `net.ParseIP`, `To4() != nil`. -/
def isValidIPv4 (ip : String) : Bool :=
  match goParseIP (trimSpace ip) with
  | none => false
  | some p => (To4 p).isSome

/-- Outcome of one plain-text HTTP GET against a discovery endpoint. -/
inductive HTTPResult where
  | err (e : String)
  | resp (status : Int) (body : String)

/-- `getIPFromService`: transport error, non-200 status, empty trimmed body
and invalid address are failures; otherwise the trimmed body. -/
def getIPFromService (fetch : String → HTTPResult) (url : String) :
    Except String String :=
  match fetch url with
  | .err e => .error e
  | .resp status body =>
    if status ≠ 200 then .error ("服务返回状态码: " ++ toString status)
    else
      let ip := trimSpace body
      if ip = "" then .error "返回内容为空"
      else if !isValidIPv4 ip then .error ("无效的IP地址格式: " ++ ip)
      else .ok ip

def allFailMsg (lastErr : Option String) : String :=
  "所有IP检测服务均失败，最后错误: " ++ (match lastErr with | some e => e | none => "<nil>")

/-- The fallback loop of `GetPublicIPWithService`: each service in order,
skipping the primary, accepting the first valid response, tracking the last
attempt's error.  Also returns the list of endpoints queried. -/
def fallbackLoop (fetch : String → HTTPResult) (primary : String) :
    List String → Option String → List String × Except String (String × String)
  | [], lastErr => ([], .error (allFailMsg lastErr))
  | s :: rest, lastErr =>
    if s = primary then fallbackLoop fetch primary rest lastErr
    else
      match getIPFromService fetch s with
      | .ok ip =>
        if ip ≠ "" ∧ isValidIPv4 ip = true then ([s], .ok (ip, s))
        else
          let (q, r) := fallbackLoop fetch primary rest none
          (s :: q, r)
      | .error e =>
        let (q, r) := fallbackLoop fetch primary rest (some e)
        (s :: q, r)

/-- `GetPublicIPWithService`: primary first, accepted immediately when
valid; otherwise the fallback loop over the service list.  Returns the
queried endpoints in order and the result. -/
def GetPublicIPWithService (fetch : String → HTTPResult) (primary : String)
    (services : List String) : List String × Except String (String × String) :=
  match getIPFromService fetch primary with
  | .ok ip =>
    if ip ≠ "" ∧ isValidIPv4 ip = true then ([primary], .ok (ip, primary))
    else
      let (q, r) := fallbackLoop fetch primary services none
      (primary :: q, r)
  | .error _ =>
    let (q, r) := fallbackLoop fetch primary services none
    (primary :: q, r)

/-- The endpoint list of `NewIPChecker` (primary first). -/
def ipCheckerPrimary : String := "https://api.ipify.org"

def ipCheckerServices : List String :=
  ["https://api.ipify.org", "https://ifconfig.me/ip",
   "https://icanhazip.com", "https://api.ip.sb/ip"]

/-! ## Configuration loading (`config.go`) -/

/-- State of the configuration file as seen by `LoadConfig`:
`os.ReadFile` failed (absent or unreadable file), the JSON failed to
unmarshal, or it decoded to a `Config`. -/
inductive ConfigFileState where
  | unreadable
  | malformed (raw : String)
  | parsed (c : Config)

/-- `LoadConfig()`: default `Config` with `RecordType:"A"` when the file is
unreadable or malformed; otherwise the parsed config with an empty
`RecordType` defaulted to `"A"`. Always returns a `Config` (never an error
or nil). -/
def LoadConfig : ConfigFileState → Config
  | .unreadable => { apiToken := "", zoneID := "", recordName := "", recordType := "A" }
  | .malformed _ => { apiToken := "", zoneID := "", recordName := "", recordType := "A" }
  | .parsed c => if c.recordType = "" then { c with recordType := "A" } else c

/-! ## Specification-side definitions

These follow the spec's wording and are compared against the embedded
source functions. -/

/-- Trace predicate: a PUT (update) provider call. -/
def isPutCall : PCall → Bool
  | .put _ _ _ _ _ => true
  | _ => false

/-- Trace predicate: a POST (create) provider call. -/
def isCreateCall : PCall → Bool
  | .create _ _ _ _ => true
  | _ => false

/-- Trace predicate: a provider mutation (create or update). -/
def isMutationCall (c : PCall) : Bool := isCreateCall c || isPutCall c

/-- Spec side, resolver: the first endpoint in list order whose response is
accepted, together with the accepted address. -/
def firstSuccess (fetch : String → HTTPResult) : List String → Option (String × String)
  | [] => none
  | s :: rest =>
    match getIPFromService fetch s with
    | .ok ip => some (s, ip)
    | .error _ => firstSuccess fetch rest

/-- Spec side, resolver: the error of the last endpoint in the list (when
its attempt failed). -/
def lastEndpointErr (fetch : String → HTTPResult) : List String → Option String
  | [] => none
  | s :: rest =>
    match rest with
    | [] =>
      match getIPFromService fetch s with
      | .error e => some e
      | .ok _ => none
    | _ :: _ => lastEndpointErr fetch rest

/-- The `lastErr` accumulator of the fallback loop, threaded over a list of
endpoints: the error (if any) of the last attempted endpoint, starting from
the given initial value. -/
def lastErrFrom (fetch : String → HTTPResult) : Option String → List String → Option String
  | le, [] => le
  | _, s :: rest =>
    lastErrFrom fetch
      (match getIPFromService fetch s with
        | .error e => some e
        | .ok _ => none) rest

/-- Spec side, validation: the body (one whole string) is an IPv4
dotted-quad literal. -/
def isIPv4Literal (s : String) : Bool := (parseV4 s.data).isSome

/-- Spec side, validation: the body is an IPv6 literal. -/
def isIPv6Literal (s : String) : Bool := (parseIPv6Go s.data).isSome

/-- Spec side, validation: the body is an IPv4-mapped IPv6 literal
(`::ffff:a.b.c.d` and hex-group equivalents). -/
def isMappedIPv6Literal (s : String) : Bool :=
  match parseIPv6Go s.data with
  | some b =>
    decide (b.take 10 = List.replicate 10 0 ∧ b.get? 10 = some 255 ∧ b.get? 11 = some 255)
  | none => false

/-- Spec side, validation: what `getIPFromService` does with a given
response body arriving with status 200 — accepted or rejected. -/
def acceptsBody (body : String) : Bool :=
  match getIPFromService (fun _ => HTTPResult.resp 200 body) "endpoint" with
  | .ok _ => true
  | .error _ => false

/-! ## Concrete scenarios used by closed theorems and witnesses -/

def cfg1 : Config := ⟨"token", "zone1", "host.example.com", "A"⟩

/-- Another host's record at the same name (content `9.9.9.9`, TTL 120),
listed FIRST by the provider. -/
def recOtherHost : DNSRecord := ⟨"r2", "A", "host.example.com", "9.9.9.9", 120, false⟩

/-- This host's previous record (content = prior address `1.1.1.1`,
TTL 600), listed second. -/
def recThisHost : DNSRecord := ⟨"r1", "A", "host.example.com", "1.1.1.1", 600, false⟩

/-- C1 scenario: both observations `5.6.7.8`; the zone holds
`[recOtherHost, recThisHost]`; every PUT succeeds and echoes the requested
content. -/
def w1 : World :=
  ⟨fun _ => .ok ("5.6.7.8", "https://api.ipify.org"),
   fun _ => .payload true [] [recOtherHost, recThisHost],
   fun _ => .payload true [] recThisHost,
   fun _ => .payload true [] ⟨"r2", "A", "host.example.com", "5.6.7.8"⟩⟩

/-- Record created in the C2 scenario. -/
def rec22 : DNSRecord := ⟨"rNew", "A", "host.example.com", "2.2.2.2", 3600, false⟩

/-- C2 scenario: both observations `2.2.2.2`; every list call returns no
records (in particular the post-mutation verification list), every create
succeeds. -/
def w2 : World :=
  ⟨fun _ => .ok ("2.2.2.2", "https://api.ipify.org"),
   fun _ => .payload true [] [],
   fun _ => .payload true [] rec22,
   fun _ => .netErr "unused"⟩

/-- C3 scenario: first observation `2.2.2.2`, confirmation observation
`3.3.3.3`. -/
def w3 : World :=
  ⟨fun n => if n = 0 then .ok ("2.2.2.2", "https://api.ipify.org")
            else .ok ("3.3.3.3", "https://ifconfig.me/ip"),
   fun _ => .payload true [] [recOtherHost, recThisHost],
   fun _ => .payload true [] recThisHost,
   fun _ => .payload true [] ⟨"r2", "A", "host.example.com", "3.3.3.3"⟩⟩

/-- C4 scenario: every observation equals the already-applied `1.1.1.1`. -/
def w4 : World :=
  ⟨fun _ => .ok ("1.1.1.1", "https://api.ipify.org"),
   fun _ => .payload true [] [recThisHost],
   fun _ => .payload true [] recThisHost,
   fun _ => .payload true [] ⟨"r1", "A", "host.example.com", "1.1.1.1"⟩⟩

/-- C8 scenario: prior address empty, no records exist, both observations
`1.2.3.4`, create succeeds. -/
def w8 : World :=
  ⟨fun _ => .ok ("1.2.3.4", "https://api.ipify.org"),
   fun _ => .payload true [] [],
   fun _ => .payload true [] ⟨"rNew", "A", "host.example.com", "1.2.3.4", 3600, false⟩,
   fun _ => .netErr "unused"⟩

/-- C7 scenario: one record `recThisHost`; the PUT reports `success:true`
but echoes content `5.6.7.8`. -/
def w7 : World :=
  ⟨fun _ => .error "unused",
   fun _ => .payload true [] [recThisHost],
   fun _ => .netErr "unused",
   fun _ => .payload true [] ⟨"r1", "A", "host.example.com", "5.6.7.8"⟩⟩

/-- C9 scenario: both observations `9.9.9.9`; the zone already holds a
record with that content (`recOtherHost`). -/
def w9 : World :=
  ⟨fun _ => .ok ("9.9.9.9", "https://api.ipify.org"),
   fun _ => .payload true [] [recOtherHost, recThisHost],
   fun _ => .payload true [] recThisHost,
   fun _ => .netErr "unused"⟩

/-- C5 witness fetch oracle: the primary answers `1.2.3.4`. -/
def fetch5 : String → HTTPResult :=
  fun u => if u = "https://api.ipify.org" then .resp 200 "1.2.3.4" else .err "down"

/-! ## Bookkeeping lemmas -/

theorem resolveAttempts_log (w : World) :
    ∀ (n : Nat) (g : CallLog),
      ((resolveAttempts w g n).2).listCount = g.listCount ∧
      ((resolveAttempts w g n).2).createCount = g.createCount ∧
      ((resolveAttempts w g n).2).putCount = g.putCount ∧
      ((resolveAttempts w g n).2).calls = g.calls := by
  intro n
  induction n with
  | zero => intro g; exact ⟨rfl, rfl, rfl, rfl⟩
  | succ n ih =>
    intro g
    simp only [resolveAttempts]
    cases h : w.resolves g.resolveCount with
    | ok v => simp [bumpResolve]
    | error e =>
      dsimp only
      by_cases hn : n = 0
      · simp [hn, bumpResolve]
      · rw [if_neg hn]
        have h2 := ih (bumpResolve g)
        simpa [bumpResolve] using h2

/-! ## C10 — configuration loading -/

/-- C10: `LoadConfig` is total and always yields a non-empty `RecordType`,
defaulting it to `"A"` for an unreadable file, malformed JSON, or an empty
field. -/
theorem LoadConfig_recordType_defaulted_c10 :
    (∀ fs : ConfigFileState, (LoadConfig fs).recordType ≠ "") ∧
    (LoadConfig .unreadable).recordType = "A" ∧
    (∀ raw : String, (LoadConfig (.malformed raw)).recordType = "A") ∧
    (∀ c : Config, c.recordType = "" → (LoadConfig (.parsed c)).recordType = "A") := by
  refine ⟨?_, rfl, fun _ => rfl, fun c hc => ?_⟩
  · intro fs
    cases fs with
    | unreadable => simp [LoadConfig]
    | malformed raw => simp [LoadConfig]
    | parsed c =>
      by_cases hc : c.recordType = ""
      · simp [LoadConfig, hc]
      · simp [LoadConfig, hc]
  · simp [LoadConfig, hc]

/-- Witness for C10 at a concrete parsed config with an empty record
type. -/
theorem LoadConfig_recordType_defaulted_c10_witness :
    (LoadConfig (.parsed ⟨"tok", "zone", "name", ""⟩)).recordType = "A" :=
  LoadConfig_recordType_defaulted_c10.2.2.2 ⟨"tok", "zone", "name", ""⟩ rfl

/-! ## C1 — which record the update-or-create path actually updates -/

/-- C1 (failing-input evaluation): prior address `1.1.1.1`, confirmed
address `5.6.7.8`, records `[recOtherHost (9.9.9.9, ttl 120),
recThisHost (1.1.1.1, ttl 600)]`.  The cycle issues its one PUT on
`recOtherHost` — the first record of the matching type, whose content is
neither the prior nor the confirmed address — with `recOtherHost`'s TTL,
and leaves `recThisHost` untouched, contradicting the claim that the
record with content `lastAppliedAddress` is the one updated. -/
theorem update_hits_first_type_match_not_prior_c1 :
    (checkAndUpdate w1 cfg1 "1.1.1.1").2.calls.filter isPutCall
        = [PCall.put "r2" "A" "host.example.com" "5.6.7.8" 120] ∧
    (checkAndUpdate w1 cfg1 "1.1.1.1").2.calls.filter isCreateCall = [] ∧
    (checkAndUpdate w1 cfg1 "1.1.1.1").1 = "5.6.7.8" ∧
    recOtherHost.id = "r2" ∧ recOtherHost.content = "9.9.9.9" ∧
    recOtherHost.content ≠ "1.1.1.1" ∧ recOtherHost.content ≠ "5.6.7.8" ∧
    recThisHost.id = "r1" ∧ recThisHost.content = "1.1.1.1" ∧ recThisHost.ttl = 600 := by
  decide

/-! ## C3 — confirmation mismatch aborts the cycle -/

/-- C3: when the first observed address differs from `currentIP` and the
confirmation observation differs from the first, the cycle makes no
provider call at all and `currentIP` is unchanged. -/
theorem confirmation_mismatch_aborts_c3 (w : World) (cfg : Config)
    (cur ip cip svc svc2 : String) (g1 : CallLog)
    (h1 : resolveAttempts w emptyLog 3 = (.ok (ip, svc), g1))
    (hne : ip ≠ cur)
    (h2 : w.resolves g1.resolveCount = .ok (cip, svc2))
    (hcne : cip ≠ ip) :
    checkAndUpdate w cfg cur = (cur, bumpResolve g1) ∧ (bumpResolve g1).calls = [] := by
  constructor
  · simp only [checkAndUpdate, h1]
    rw [if_neg hne]
    simp only [resolveOnce, h2]
    rw [if_pos hcne]
  · have h3 := (resolveAttempts_log w 3 emptyLog).2.2.2
    rw [h1] at h3
    simpa [bumpResolve] using h3

/-- Witness for C3: observations `2.2.2.2` then `3.3.3.3` with prior
`1.1.1.1`. -/
theorem confirmation_mismatch_aborts_c3_witness :
    checkAndUpdate w3 cfg1 "1.1.1.1" = ("1.1.1.1", bumpResolve ⟨1, 0, 0, 0, []⟩) ∧
    (bumpResolve (⟨1, 0, 0, 0, []⟩ : CallLog)).calls = [] :=
  confirmation_mismatch_aborts_c3 w3 cfg1 "1.1.1.1" "2.2.2.2" "3.3.3.3"
    "https://api.ipify.org" "https://ifconfig.me/ip" ⟨1, 0, 0, 0, []⟩
    rfl (by decide) rfl (by decide)

/-! ## C4 — no-op short circuit and idempotence -/

/-- C4: when the observed address equals `currentIP` the cycle makes no
provider call of any kind and `currentIP` is unchanged; consequently a
second run observing the same address again makes no provider call. -/
theorem noop_short_circuit_c4 (w : World) (cfg : Config)
    (cur ip svc : String) (g1 : CallLog)
    (h1 : resolveAttempts w emptyLog 3 = (.ok (ip, svc), g1))
    (heq : ip = cur) :
    checkAndUpdate w cfg cur = (cur, g1) ∧ g1.calls = [] ∧
    (∀ (w2 : World) (svc2 : String) (g2 : CallLog),
      resolveAttempts w2 emptyLog 3 = (.ok (ip, svc2), g2) →
        (checkAndUpdate w2 cfg (checkAndUpdate w cfg cur).1).2.calls = []) := by
  have hrun : checkAndUpdate w cfg cur = (cur, g1) := by
    simp only [checkAndUpdate, h1]
    rw [if_pos heq]
  have hcalls : g1.calls = [] := by
    have h3 := (resolveAttempts_log w 3 emptyLog).2.2.2
    rw [h1] at h3
    exact h3
  refine ⟨hrun, hcalls, ?_⟩
  intro w2 svc2 g2 h2
  have hcalls2 : g2.calls = [] := by
    have h3 := (resolveAttempts_log w2 3 emptyLog).2.2.2
    rw [h2] at h3
    exact h3
  rw [hrun]
  simp only [checkAndUpdate, h2]
  rw [if_pos heq]
  exact hcalls2

/-- Witness for C4: the resolver keeps answering `1.1.1.1`, which is
already applied; two consecutive runs make no provider call. -/
theorem noop_short_circuit_c4_witness :
    checkAndUpdate w4 cfg1 "1.1.1.1" = ("1.1.1.1", ⟨1, 0, 0, 0, []⟩) ∧
    (checkAndUpdate w4 cfg1 (checkAndUpdate w4 cfg1 "1.1.1.1").1).2.calls = [] := by
  have h := noop_short_circuit_c4 w4 cfg1 "1.1.1.1" "1.1.1.1" "https://api.ipify.org"
    ⟨1, 0, 0, 0, []⟩ rfl rfl
  exact ⟨h.1, h.2.2 w4 "https://api.ipify.org" ⟨1, 0, 0, 0, []⟩ rfl⟩

/-! ## C9 — reconciliation already satisfied -/

/-- C9: on a confirmed change, when the freshly listed records of the
configured type already contain one with the confirmed content, the cycle
sets `currentIP` to the confirmed address and makes exactly one provider
call (the list) — no create, no update. -/
theorem already_satisfied_no_mutation_c9 (w : World) (cfg : Config)
    (cur ip svc svc2 : String) (g1 : CallLog) (es : List CFError) (recs : List DNSRecord)
    (h1 : resolveAttempts w emptyLog 3 = (.ok (ip, svc), g1))
    (hne : ip ≠ cur)
    (h2 : w.resolves g1.resolveCount = .ok (ip, svc2))
    (h3 : w.lists 0 = .payload true es recs)
    (h4 : (recs.filter (fun r => r.type = cfg.recordType)).any (fun r => r.content = ip) = true) :
    (checkAndUpdate w cfg cur).1 = ip ∧
    (checkAndUpdate w cfg cur).2.calls = [PCall.list] := by
  have hl := resolveAttempts_log w 3 emptyLog
  rw [h1] at hl
  have hl1 : g1.listCount = 0 := hl.1
  have hcalls : g1.calls = [] := hl.2.2.2
  have hrun : checkAndUpdate w cfg cur = (ip, logList (bumpResolve g1)) := by
    simp only [checkAndUpdate, h1]
    rw [if_neg hne]
    simp only [resolveOnce, h2]
    rw [if_neg (fun h => h rfl)]
    simp only [GetAllDNSRecords, bumpResolve]
    rw [hl1, h3]
    simp [apiResult, h4]
  rw [hrun]
  refine ⟨rfl, ?_⟩
  simp [logList, bumpResolve, hcalls]

/-- Witness for C9: prior `1.1.1.1`, confirmed `9.9.9.9`, and the zone
already holds a record with content `9.9.9.9`. -/
theorem already_satisfied_no_mutation_c9_witness :
    (checkAndUpdate w9 cfg1 "1.1.1.1").1 = "9.9.9.9" ∧
    (checkAndUpdate w9 cfg1 "1.1.1.1").2.calls = [PCall.list] :=
  already_satisfied_no_mutation_c9 w9 cfg1 "1.1.1.1" "9.9.9.9"
    "https://api.ipify.org" "https://api.ipify.org" ⟨1, 0, 0, 0, []⟩ []
    [recOtherHost, recThisHost] rfl (by decide) rfl rfl (by decide)

/-! ## C8 — fallback creation and its TTL -/

/-- C8: when no existing record of the configured type carries the
confirmed or the prior address (or the prior address is empty), the cycle
issues exactly one create with the confirmed address, the configured type
and name, and the TTL of the first existing type-matching record if one
exists, else 3600; afterwards `currentIP` is the confirmed address. -/
theorem fallback_creation_c8 (w : World) (cfg : Config)
    (cur ip svc svc2 : String) (g1 : CallLog) (es es2 es3 : List CFError)
    (recs : List DNSRecord) (newRec : DNSRecord)
    (h1 : resolveAttempts w emptyLog 3 = (.ok (ip, svc), g1))
    (hne : ip ≠ cur)
    (h2 : w.resolves g1.resolveCount = .ok (ip, svc2))
    (h3 : w.lists 0 = .payload true es recs)
    (h4 : (recs.filter (fun r => r.type = cfg.recordType)).any (fun r => r.content = ip) = false)
    (h5 : cur = "" ∨
      (recs.filter (fun r => r.type = cfg.recordType)).any (fun r => r.content = cur) = false)
    (h6 : w.lists 1 = .payload true es2 recs)
    (h7 : w.creates 0 = .payload true es3 newRec) :
    (checkAndUpdate w cfg cur).1 = ip ∧
    (checkAndUpdate w cfg cur).2.calls =
      [PCall.list, PCall.list,
       PCall.create cfg.recordType cfg.recordName ip
         (match recs.filter (fun r => r.type = cfg.recordType) with
          | [] => 3600
          | r :: _ => r.ttl),
       PCall.list] := by
  have hl := resolveAttempts_log w 3 emptyLog
  rw [h1] at hl
  have hl1 : g1.listCount = 0 := hl.1
  have hc1 : g1.createCount = 0 := hl.2.1
  have hcalls : g1.calls = [] := hl.2.2.2
  have h3' : w.lists ((bumpResolve g1).listCount) = .payload true es recs := by
    simpa [bumpResolve, hl1] using h3
  have h6' : w.lists ((logList (bumpResolve g1)).listCount) = .payload true es2 recs := by
    simpa [logList, bumpResolve, hl1] using h6
  have h7' : w.creates ((logList (logList (bumpResolve g1))).createCount)
      = .payload true es3 newRec := by
    simpa [logList, bumpResolve, hc1] using h7
  have hrun : checkAndUpdate w cfg cur =
      (ip, logList (logCreate (logList (logList (bumpResolve g1)))
        (PCall.create cfg.recordType cfg.recordName ip
          (defaultTTLOf (recs.filter (fun r => r.type = cfg.recordType)))))) := by
    simp only [checkAndUpdate, h1]
    rw [if_neg hne]
    simp only [resolveOnce, h2]
    rw [if_neg (fun h => h rfl)]
    simp only [GetAllDNSRecords]
    rw [h3']
    by_cases hfe : (recs.filter (fun r => r.type = cfg.recordType)) = []
    · simp [mutatePhase, mutateRetry, UpdateOrCreateDNSRecord, GetAllDNSRecords,
            CreateDNSRecord, apiResult, Except.map, h6', h7', hfe, h4]
    · rcases h5 with h5 | h5
      · simp [mutatePhase, mutateRetry, UpdateOrCreateDNSRecord, GetAllDNSRecords,
              CreateDNSRecord, apiResult, Except.map, h6', h7', hfe, h4, h5]
      · simp [mutatePhase, mutateRetry, UpdateOrCreateDNSRecord, GetAllDNSRecords,
              CreateDNSRecord, apiResult, Except.map, h6', h7', hfe, h4, h5]
  rw [hrun]
  refine ⟨rfl, ?_⟩
  simp [logList, logCreate, bumpResolve, hcalls, defaultTTLOf]

/-- Witness for C8 — the spec's own example: prior address empty, no
records, confirmed `1.2.3.4` → one create `(A, host.example.com, 1.2.3.4,
ttl 3600)` and `currentIP = "1.2.3.4"` afterwards. -/
theorem fallback_creation_c8_witness :
    (checkAndUpdate w8 cfg1 "").1 = "1.2.3.4" ∧
    (checkAndUpdate w8 cfg1 "").2.calls =
      [PCall.list, PCall.list, PCall.create "A" "host.example.com" "1.2.3.4" 3600,
       PCall.list] := by
  have h := fallback_creation_c8 w8 cfg1 "" "1.2.3.4"
    "https://api.ipify.org" "https://api.ipify.org" ⟨1, 0, 0, 0, []⟩ [] [] [] []
    ⟨"rNew", "A", "host.example.com", "1.2.3.4", 3600, false⟩
    rfl (by decide) rfl rfl (by decide) (Or.inl rfl) rfl rfl
  simpa [cfg1] using h

/-! ## C2 — post-mutation verification only logs -/

/-- C2 counterexample: prior `1.1.1.1`, confirmed `2.2.2.2`; the create
mutation succeeds but every list call (including the post-mutation
verification list) returns no records, so the re-list finds no record with
the confirmed content — yet `currentIP` becomes `2.2.2.2` instead of
staying `1.1.1.1` as the claim requires. -/
theorem verification_failure_keeps_address_c2_counterexample :
    w2.creates 0 = APIResp.payload true [] rec22 ∧
    (checkAndUpdate w2 cfg1 "1.1.1.1").2.calls =
      [PCall.list, PCall.list, PCall.create "A" "host.example.com" "2.2.2.2" 3600,
       PCall.list] ∧
    w2.lists 2 = APIResp.payload true [] [] ∧
    (checkAndUpdate w2 cfg1 "1.1.1.1").1 = "2.2.2.2" ∧
    (checkAndUpdate w2 cfg1 "1.1.1.1").1 ≠ "1.1.1.1" := by
  decide

/-- C2 as amended: once the create-or-update mutation call succeeds,
`currentIP` is set to the confirmed address regardless of what the
post-mutation verification re-list returns (the verification outcome is
only logged). -/
theorem mutation_success_sets_address_c2 (w : World) (cfg : Config)
    (cur ip svc svc2 : String) (g1 : CallLog)
    (h1 : resolveAttempts w emptyLog 3 = (.ok (ip, svc), g1))
    (hne : ip ≠ cur)
    (h2 : w.resolves g1.resolveCount = .ok (ip, svc2))
    (hmut : ∀ (recs : List DNSRecord) (g : CallLog),
      (mutateRetry w cfg ip (defaultTTLOf recs) cur g 3).1 = true) :
    (checkAndUpdate w cfg cur).1 = ip := by
  simp only [checkAndUpdate, h1]
  rw [if_neg hne]
  simp only [resolveOnce, h2]
  rw [if_neg (fun h => h rfl)]
  simp only [GetAllDNSRecords]
  cases hres : apiResult (w.lists (bumpResolve g1).listCount) with
  | error e =>
    dsimp only
    simp only [mutatePhase]
    have hm := hmut [] (logList (bumpResolve g1))
    cases hmr : mutateRetry w cfg ip (defaultTTLOf []) cur (logList (bumpResolve g1)) 3 with
    | mk b g2 =>
      rw [hmr] at hm
      simp only at hm
      subst hm
      rfl
  | ok records =>
    dsimp only
    by_cases hany :
        ((records.filter (fun r => r.type = cfg.recordType)).any (fun r => r.content = ip)) = true
    · rw [if_pos hany]
    · rw [if_neg hany]
      simp only [mutatePhase]
      have hm := hmut (records.filter (fun r => r.type = cfg.recordType))
        (logList (bumpResolve g1))
      cases hmr : mutateRetry w cfg ip
          (defaultTTLOf (records.filter (fun r => r.type = cfg.recordType))) cur
          (logList (bumpResolve g1)) 3 with
      | mk b g2 =>
        rw [hmr] at hm
        simp only at hm
        subst hm
        rfl

/-- Witness for the amended C2, in the counterexample world. -/
theorem mutation_success_sets_address_c2_witness :
    (checkAndUpdate w2 cfg1 "1.1.1.1").1 = "2.2.2.2" :=
  mutation_success_sets_address_c2 w2 cfg1 "1.1.1.1" "2.2.2.2"
    "https://api.ipify.org" "https://api.ipify.org" ⟨1, 0, 0, 0, []⟩
    rfl (by decide) rfl (fun _ _ => rfl)

/-! ## C7 — read-back verification in `UpdateDNSRecord` -/

/-- C7: when the PUT goes through at the transport level and the provider
reports `success:true`, `UpdateDNSRecord` succeeds exactly when the echoed
content equals the requested content. -/
theorem update_readback_verification_c7 (w : World) (cfg : Config)
    (content : String) (g : CallLog) (es es2 : List CFError)
    (records : List DNSRecord) (target : DNSRecord) (upd : UpdateResult)
    (hl : w.lists g.listCount = .payload true es records)
    (hfind : records.find? (fun r => r.type = cfg.recordType) = some target)
    (hdiff : target.content ≠ content)
    (hput : w.puts g.putCount = .payload true es2 upd) :
    ((UpdateDNSRecord w cfg content g).1 = .ok ()) ↔ upd.content = content := by
  have hrecs : records ≠ [] := by
    intro h
    rw [h] at hfind
    simp at hfind
  have hput' : w.puts ((logList g).putCount) = .payload true es2 upd := hput
  simp only [UpdateDNSRecord, ListDNSRecords, hl, apiResult]
  rw [if_pos trivial]
  dsimp only
  rw [if_neg hrecs, hfind]
  dsimp only
  rw [if_neg hdiff]
  rw [hput']
  dsimp only
  rw [if_pos rfl]
  by_cases hc : upd.content = content
  · rw [if_neg (fun h => h hc)]
    simp [hc]
  · rw [if_pos hc]
    simp [hc]

/-- Witness for C7: the PUT succeeds with `success:true` and echoes the
requested content, so the call succeeds. -/
theorem update_readback_verification_c7_witness :
    ((UpdateDNSRecord w7 cfg1 "5.6.7.8" emptyLog).1 = Except.ok ()) ↔
      (⟨"r1", "A", "host.example.com", "5.6.7.8"⟩ : UpdateResult).content = "5.6.7.8" :=
  update_readback_verification_c7 w7 cfg1 "5.6.7.8" emptyLog [] []
    [recThisHost] recThisHost ⟨"r1", "A", "host.example.com", "5.6.7.8"⟩
    rfl (by decide) (by decide) rfl

/-! ## C5 — resolver endpoint order -/

theorem getIPFromService_ok (fetch : String → HTTPResult) (url ip : String)
    (h : getIPFromService fetch url = .ok ip) :
    ip ≠ "" ∧ isValidIPv4 ip = true := by
  unfold getIPFromService at h
  cases hf : fetch url with
  | err e => rw [hf] at h; simp at h
  | resp status body =>
    rw [hf] at h
    dsimp only at h
    by_cases hs : status ≠ 200
    · rw [if_pos hs] at h; simp at h
    · rw [if_neg hs] at h
      by_cases he : trimSpace body = ""
      · rw [if_pos he] at h; simp at h
      · rw [if_neg he] at h
        by_cases hv : isValidIPv4 (trimSpace body) = true
        · rw [if_neg (by simp [hv])] at h
          obtain rfl : trimSpace body = ip := by simpa using h
          exact ⟨he, hv⟩
        · have hvf : isValidIPv4 (trimSpace body) = false := by
            cases hb : isValidIPv4 (trimSpace body)
            · rfl
            · exact absurd hb hv
          rw [if_pos (by rw [hvf]; rfl)] at h
          simp at h

theorem firstSuccess_none_allFail (fetch : String → HTTPResult) :
    ∀ l : List String, firstSuccess fetch l = none →
      ∀ s ∈ l, ∃ e, getIPFromService fetch s = .error e := by
  intro l
  induction l with
  | nil => intro _ s hs; simp at hs
  | cons a rest ih =>
    intro h s hs
    simp only [firstSuccess] at h
    cases hg : getIPFromService fetch a with
    | ok ip => rw [hg] at h; simp at h
    | error e =>
      rw [hg] at h
      rcases List.mem_cons.mp hs with rfl | hs'
      · exact ⟨e, hg⟩
      · exact ih h s hs'

theorem lastErrFrom_eq (fetch : String → HTTPResult) :
    ∀ (l : List String) (le : Option String),
      (∀ s ∈ l, ∃ e, getIPFromService fetch s = .error e) → l ≠ [] →
      lastErrFrom fetch le l = lastEndpointErr fetch l := by
  intro l
  induction l with
  | nil => intro le _ h; exact absurd rfl h
  | cons a rest ih =>
    intro le hall _
    obtain ⟨ea, hga⟩ := hall a (List.mem_cons_self a rest)
    cases rest with
    | nil => simp [lastErrFrom, lastEndpointErr, hga]
    | cons b rest2 =>
      simp only [lastErrFrom, lastEndpointErr, hga]
      exact ih (some ea) (fun s hs => hall s (List.mem_cons_of_mem a hs)) (by simp)

theorem fallbackLoop_spec (fetch : String → HTTPResult) (primary : String) :
    ∀ (l : List String) (le : Option String),
      (∀ s ip, firstSuccess fetch (l.filter (fun x => x ≠ primary)) = some (s, ip) →
        (fallbackLoop fetch primary l le).2 = .ok (ip, s)) ∧
      (firstSuccess fetch (l.filter (fun x => x ≠ primary)) = none →
        (fallbackLoop fetch primary l le).2 =
          .error (allFailMsg (lastErrFrom fetch le (l.filter (fun x => x ≠ primary))))) := by
  intro l
  induction l with
  | nil =>
    intro le
    constructor
    · intro s ip h; simp [firstSuccess] at h
    · intro _; rfl
  | cons a rest ih =>
    intro le
    by_cases ha : a = primary
    · have hfil : (a :: rest).filter (fun x => x ≠ primary) =
          rest.filter (fun x => x ≠ primary) := by
        simp [List.filter_cons, ha]
      constructor
      · intro s ip h
        rw [hfil] at h
        simp only [fallbackLoop]
        rw [if_pos ha]
        exact (ih le).1 s ip h
      · intro h
        rw [hfil] at h
        simp only [fallbackLoop]
        rw [if_pos ha, hfil]
        exact (ih le).2 h
    · have hfil : (a :: rest).filter (fun x => x ≠ primary) =
          a :: rest.filter (fun x => x ≠ primary) := by
        simp [List.filter_cons, ha]
      constructor
      · intro s ip h
        rw [hfil] at h
        unfold firstSuccess at h
        simp only [fallbackLoop]
        rw [if_neg ha]
        generalize hg : getIPFromService fetch a = res at h ⊢
        cases res with
        | ok ip2 =>
          have hok := getIPFromService_ok fetch a ip2 hg
          dsimp only at h ⊢
          simp only [Option.some.injEq, Prod.mk.injEq] at h
          rw [if_pos hok]
          simp [h.1, h.2]
        | error e =>
          dsimp only at h ⊢
          exact (ih (some e)).1 s ip h
      · intro h
        rw [hfil] at h
        unfold firstSuccess at h
        simp only [fallbackLoop]
        rw [if_neg ha, hfil]
        unfold lastErrFrom
        generalize hg : getIPFromService fetch a = res at h ⊢
        cases res with
        | ok ip2 => simp at h
        | error e =>
          dsimp only at h ⊢
          exact (ih (some e)).2 h

/-- C5: the resolver queries the primary endpoint first and accepts a valid
primary answer immediately without consulting any other endpoint; when the
primary attempt fails it accepts the first valid response among the
remaining endpoints in list order, and when every endpoint fails it returns
the all-failed error carrying the last endpoint's underlying error. -/
theorem resolver_primary_then_fallback_c5 (fetch : String → HTTPResult)
    (primary : String) (services : List String) :
    ((GetPublicIPWithService fetch primary services).1.head? = some primary) ∧
    (∀ ip, getIPFromService fetch primary = .ok ip →
      GetPublicIPWithService fetch primary services = ([primary], .ok (ip, primary))) ∧
    (∀ e, getIPFromService fetch primary = .error e →
      (∀ s ip, firstSuccess fetch (services.filter (fun x => x ≠ primary)) = some (s, ip) →
        (GetPublicIPWithService fetch primary services).2 = .ok (ip, s)) ∧
      (firstSuccess fetch (services.filter (fun x => x ≠ primary)) = none →
        (GetPublicIPWithService fetch primary services).2 =
          .error (allFailMsg (lastEndpointErr fetch
            (services.filter (fun x => x ≠ primary)))))) := by
  refine ⟨?_, ?_, ?_⟩
  · unfold GetPublicIPWithService
    cases hg : getIPFromService fetch primary with
    | ok ip =>
      dsimp only
      by_cases hc : ip ≠ "" ∧ isValidIPv4 ip = true
      · rw [if_pos hc]
        rfl
      · rw [if_neg hc]
        rfl
    | error e => rfl
  · intro ip hg
    unfold GetPublicIPWithService
    rw [hg]
    dsimp only
    rw [if_pos (getIPFromService_ok fetch primary ip hg)]
  · intro e hg
    have hspec := fallbackLoop_spec fetch primary services none
    constructor
    · intro s ip h
      unfold GetPublicIPWithService
      rw [hg]
      exact hspec.1 s ip h
    · intro h
      unfold GetPublicIPWithService
      rw [hg]
      have hres := hspec.2 h
      by_cases hemp : services.filter (fun x => x ≠ primary) = []
      · rw [hemp] at hres
        unfold lastErrFrom at hres
        rw [hemp]
        exact hres
      · rw [lastErrFrom_eq fetch _ none (firstSuccess_none_allFail fetch _ h) hemp] at hres
        exact hres

/-- Witness for C5: the primary endpoint of `NewIPChecker` answers
`1.2.3.4` with status 200, so it is accepted immediately and no other
endpoint is consulted. -/
theorem resolver_primary_then_fallback_c5_witness :
    GetPublicIPWithService fetch5 ipCheckerPrimary ipCheckerServices =
      ([ipCheckerPrimary], .ok ("1.2.3.4", ipCheckerPrimary)) :=
  (resolver_primary_then_fallback_c5 fetch5 ipCheckerPrimary ipCheckerServices).2.1
    "1.2.3.4" rfl

/-! ## C6 — what the validator accepts -/

theorem dropWhile_head_not (p : Char → Bool) :
    ∀ (l : List Char) (a : Char) (t : List Char),
      l.dropWhile p = a :: t → p a = false := by
  intro l
  induction l with
  | nil => intro a t h; simp at h
  | cons b r ih =>
    intro a t h
    rw [List.dropWhile_cons] at h
    by_cases hb : p b = true
    · rw [if_pos hb] at h
      exact ih a t h
    · rw [if_neg hb] at h
      injection h with h1 _
      subst h1
      simpa using hb

theorem dropWhile_eq_self (p : Char → Bool) (l : List Char)
    (h : ∀ a t, l = a :: t → p a = false) : l.dropWhile p = l := by
  cases l with
  | nil => rfl
  | cons b r =>
    have hb := h b r rfl
    rw [List.dropWhile_cons, if_neg (by simp [hb])]

theorem trim_core (p : Char → Bool) (d : List Char) :
    ((((d.dropWhile p).reverse.dropWhile p).reverse.dropWhile p).reverse.dropWhile p).reverse
      = ((d.dropWhile p).reverse.dropWhile p).reverse := by
  generalize hm : d.dropWhile p = m
  generalize hx : m.reverse.dropWhile p = x
  have h1 : x.reverse.dropWhile p = x.reverse := by
    apply dropWhile_eq_self
    intro a t hat
    have hga : x.getLast? = some a := by
      rw [← List.head?_reverse, hat]
      rfl
    have hsplit : m.reverse.takeWhile p ++ x = m.reverse := by
      rw [← hx]
      exact List.takeWhile_append_dropWhile p m.reverse
    have hgm : m.reverse.getLast? = some a := by
      rw [← hsplit, List.getLast?_append, hga]
      rfl
    have hhm : m.head? = some a := by
      rw [← List.getLast?_reverse]
      exact hgm
    cases m with
    | nil => simp at hhm
    | cons b tb =>
      simp only [List.head?_cons, Option.some.injEq] at hhm
      subst hhm
      exact dropWhile_head_not p d b tb hm
  rw [h1, List.reverse_reverse]
  have h2 : x.dropWhile p = x := by
    apply dropWhile_eq_self
    intro a t hat
    exact dropWhile_head_not p m.reverse a t (hat ▸ hx)
  rw [h2]

theorem trimSpace_idem (s : String) : trimSpace (trimSpace s) = trimSpace s := by
  unfold trimSpace
  exact congrArg String.mk (trim_core goIsSpace s.data)

theorem digit_not_special (c : Char) (h : '0' ≤ c ∧ c ≤ '9') :
    (c == '.' || c == ':' || c == '%') = false := by
  obtain ⟨h1, h2⟩ := h
  have hd : c ≠ '.' := by rintro rfl; revert h1; decide
  have hc : c ≠ ':' := by rintro rfl; revert h2; decide
  have hp : c ≠ '%' := by rintro rfl; revert h1; decide
  simp [hd, hc, hp]

theorem hex_not_special (c : Char) (h : isHexDigitGo c = true) :
    (c == '.' || c == ':' || c == '%') = false := by
  unfold isHexDigitGo at h
  simp only [Bool.or_eq_true, Bool.and_eq_true, decide_eq_true_eq] at h
  have hd : c ≠ '.' := by
    rintro rfl
    rcases h with (⟨h1, _⟩ | ⟨h1, _⟩) | ⟨h1, _⟩
    · revert h1; decide
    · revert h1; decide
    · revert h1; decide
  have hc : c ≠ ':' := by
    rintro rfl
    rcases h with (⟨_, h2⟩ | ⟨h1, _⟩) | ⟨h1, _⟩
    · revert h2; decide
    · revert h1; decide
    · revert h1; decide
  have hp : c ≠ '%' := by
    rintro rfl
    rcases h with (⟨h1, _⟩ | ⟨h1, _⟩) | ⟨h1, _⟩
    · revert h1; decide
    · revert h1; decide
    · revert h1; decide
  simp [hd, hc, hp]

theorem find?_append_false (p : Char → Bool) :
    ∀ (l1 l2 : List Char), (∀ c ∈ l1, p c = false) →
      List.find? p (l1 ++ l2) = List.find? p l2 := by
  intro l1 l2
  induction l1 with
  | nil => intro _; rfl
  | cons a r ih =>
    intro hall
    simp only [List.cons_append, List.find?_cons]
    rw [hall a (List.mem_cons_self a r)]
    exact ih (fun c hc => hall c (List.mem_cons_of_mem a hc))

theorem parseV4Fields_chars :
    ∀ (l : List Char) (val digLen pos : Nat) (acc b : List Nat),
      parseV4Fields l val digLen pos acc = some b →
      ∀ c ∈ l, ('0' ≤ c ∧ c ≤ '9') ∨ c = '.' := by
  intro l
  induction l with
  | nil => intro _ _ _ _ _ _ c hc; simp at hc
  | cons a r ih =>
    intro val digLen pos acc b h c hc
    unfold parseV4Fields at h
    by_cases h1 : '0' ≤ a ∧ a ≤ '9'
    · rw [if_pos h1] at h
      by_cases h2 : digLen = 1 ∧ val = 0
      · rw [if_pos h2] at h; simp at h
      · rw [if_neg h2] at h
        dsimp only at h
        by_cases h3 : val * 10 + (a.toNat - '0'.toNat) > 255
        · rw [if_pos h3] at h; simp at h
        · rw [if_neg h3] at h
          by_cases h4 : digLen + 1 > 3
          · rw [if_pos h4] at h; simp at h
          · rw [if_neg h4] at h
            rcases List.mem_cons.mp hc with rfl | hc'
            · exact Or.inl h1
            · exact ih _ _ _ _ _ h c hc'
    · rw [if_neg h1] at h
      by_cases h5 : a = '.'
      · rw [if_pos h5] at h
        by_cases h6 : digLen = 0 ∨ r = []
        · rw [if_pos h6] at h; simp at h
        · rw [if_neg h6] at h
          by_cases h7 : pos = 3
          · rw [if_pos h7] at h; simp at h
          · rw [if_neg h7] at h
            rcases List.mem_cons.mp hc with rfl | hc'
            · exact Or.inr h5
            · exact ih _ _ _ _ _ h c hc'
      · rw [if_neg h5] at h; simp at h

theorem parseV4Fields_dot :
    ∀ (l : List Char) (val digLen pos : Nat) (acc b : List Nat),
      parseV4Fields l val digLen pos acc = some b → pos < 3 → '.' ∈ l := by
  intro l
  induction l with
  | nil =>
    intro val _ pos acc b h hp
    unfold parseV4Fields at h
    rw [if_pos hp] at h
    simp at h
  | cons a r ih =>
    intro val digLen pos acc b h hp
    unfold parseV4Fields at h
    by_cases h1 : '0' ≤ a ∧ a ≤ '9'
    · rw [if_pos h1] at h
      by_cases h2 : digLen = 1 ∧ val = 0
      · rw [if_pos h2] at h; simp at h
      · rw [if_neg h2] at h
        dsimp only at h
        by_cases h3 : val * 10 + (a.toNat - '0'.toNat) > 255
        · rw [if_pos h3] at h; simp at h
        · rw [if_neg h3] at h
          by_cases h4 : digLen + 1 > 3
          · rw [if_pos h4] at h; simp at h
          · rw [if_neg h4] at h
            exact List.mem_cons_of_mem a (ih _ _ _ _ _ h hp)
    · rw [if_neg h1] at h
      by_cases h5 : a = '.'
      · subst h5
        exact List.mem_cons_self _ _
      · rw [if_neg h5] at h; simp at h

theorem firstSpecial_of_digit_dot :
    ∀ cs : List Char, (∀ c ∈ cs, ('0' ≤ c ∧ c ≤ '9') ∨ c = '.') → '.' ∈ cs →
      firstSpecial cs = some '.' := by
  intro cs
  induction cs with
  | nil => intro _ hdot; simp at hdot
  | cons a r ih =>
    intro hchars hdot
    unfold firstSpecial
    rw [List.find?_cons]
    rcases hchars a (List.mem_cons_self a r) with hdig | hadot
    · have had : a ≠ '.' := by
        rintro rfl
        rcases hdig with ⟨h1, _⟩
        revert h1
        decide
      rw [digit_not_special a hdig]
      have hdot' : '.' ∈ r := by
        rcases List.mem_cons.mp hdot with h' | h'
        · exact absurd h'.symm had
        · exact h'
      exact ih (fun c hc => hchars c (List.mem_cons_of_mem a hc)) hdot'
    · subst hadot
      rfl

theorem parseV4_firstSpecial (cs : List Char) (b : List Nat)
    (h : parseV4 cs = some b) : firstSpecial cs = some '.' :=
  firstSpecial_of_digit_dot cs (parseV4Fields_chars cs 0 0 0 [] b h)
    (parseV4Fields_dot cs 0 0 0 [] b h (by decide))

theorem firstSpecial_hex_colon (ds rest : List Char)
    (hhex : ∀ c ∈ ds, isHexDigitGo c = true) :
    firstSpecial (ds ++ ':' :: rest) = some ':' := by
  unfold firstSpecial
  rw [find?_append_false _ ds (':' :: rest) (fun c hc => hex_not_special c (hhex c hc))]
  rw [List.find?_cons]
  rfl

theorem v6Loop_shape (cs : List Char) (b : List Nat)
    (h : v6Finish (v6Loop 9 cs [] 0 none) = some b) :
    ∃ ds rest, cs = ds ++ ':' :: rest ∧ ds ≠ [] ∧ ∀ c ∈ ds, isHexDigitGo c = true := by
  rw [show (9 : Nat) = 8 + 1 from rfl] at h
  unfold v6Loop at h
  rw [if_pos (by decide : (0 : Nat) < 16)] at h
  dsimp only at h
  by_cases h1 : cs.takeWhile isHexDigitGo = []
  · rw [if_pos h1] at h; simp [v6Finish] at h
  · rw [if_neg h1] at h
    by_cases h2 : (cs.takeWhile isHexDigitGo).length > 4
    · rw [if_pos h2] at h; simp [v6Finish] at h
    · rw [if_neg h2] at h
      by_cases h3 : (cs.dropWhile isHexDigitGo).head? = some '.'
      · rw [if_pos h3, if_pos ⟨rfl, by decide⟩] at h
        simp [v6Finish] at h
      · rw [if_neg h3] at h
        cases hrest : cs.dropWhile isHexDigitGo with
        | nil =>
          rw [hrest] at h
          simp [v6Finish] at h
        | cons c rest1 =>
          rw [hrest] at h
          dsimp only at h
          by_cases h4 : c ≠ ':'
          · rw [if_pos h4] at h; simp [v6Finish] at h
          · rw [if_neg h4] at h
            push_neg at h4
            refine ⟨cs.takeWhile isHexDigitGo, rest1, ?_, h1,
              fun c hc => List.mem_takeWhile_imp hc⟩
            conv_lhs => rw [← List.takeWhile_append_dropWhile isHexDigitGo cs]
            rw [hrest, h4]

theorem parseIPv6Go_firstSpecial (cs : List Char) (b : List Nat)
    (h : parseIPv6Go cs = some b) : firstSpecial cs = some ':' := by
  unfold parseIPv6Go at h
  by_cases hp : cs.contains '%'
  · rw [if_pos hp] at h; simp at h
  · rw [if_neg hp] at h
    cases cs with
    | nil =>
      rw [show (9 : Nat) = 8 + 1 from rfl] at h
      simp [v6Loop, v6Finish] at h
    | cons c1 cs1 =>
      cases cs1 with
      | nil =>
        dsimp only at h
        obtain ⟨ds, rest, heq, _, hhex⟩ := v6Loop_shape [c1] b h
        rw [heq]
        exact firstSpecial_hex_colon ds rest hhex
      | cons c2 rest0 =>
        dsimp only at h
        by_cases hcc : c1 = ':' ∧ c2 = ':'
        · obtain ⟨hc1, hc2⟩ := hcc
          subst hc1
          subst hc2
          rfl
        · rw [if_neg hcc] at h
          obtain ⟨ds, rest, heq, _, hhex⟩ := v6Loop_shape (c1 :: c2 :: rest0) b h
          rw [heq]
          exact firstSpecial_hex_colon ds rest hhex

theorem isValidIPv4_iff (t : String) (hid : trimSpace t = t) :
    isValidIPv4 t = true ↔
      (isIPv4Literal t = true ∨ isMappedIPv6Literal t = true) := by
  unfold isValidIPv4
  rw [hid]
  constructor
  · intro h
    cases hgp : goParseIP t with
    | none => rw [hgp] at h; simp at h
    | some p =>
      rw [hgp] at h
      dsimp only at h
      unfold goParseIP at hgp
      cases hfs : firstSpecial t.data with
      | none => rw [hfs] at hgp; simp at hgp
      | some c =>
        rw [hfs] at hgp
        dsimp only at hgp
        by_cases hcd : c = '.'
        · rw [if_pos hcd] at hgp
          cases hv4 : parseV4 t.data with
          | none => rw [hv4] at hgp; simp at hgp
          | some b4 =>
            left
            unfold isIPv4Literal
            rw [hv4]
            rfl
        · rw [if_neg hcd] at hgp
          by_cases hcc : c = ':'
          · rw [if_pos hcc] at hgp
            cases hv6 : parseIPv6Go t.data with
            | none => rw [hv6] at hgp; simp at hgp
            | some b6 =>
              rw [hv6] at hgp
              have hp : p = GoIP.v6 b6 := by
                simpa using hgp.symm
              subst hp
              right
              unfold isMappedIPv6Literal
              rw [hv6]
              dsimp only
              unfold To4 at h
              dsimp only at h
              by_cases hm : (b6.take 10 = List.replicate 10 0 ∧
                  b6.get? 10 = some 255 ∧ b6.get? 11 = some 255)
              · exact decide_eq_true hm
              · rw [if_neg hm] at h; simp at h
          · rw [if_neg hcc] at hgp; simp at hgp
  · intro h
    rcases h with h | h
    · unfold isIPv4Literal at h
      cases hv4 : parseV4 t.data with
      | none => rw [hv4] at h; simp at h
      | some b4 =>
        have hfs := parseV4_firstSpecial t.data b4 hv4
        have hg : goParseIP t = some (GoIP.v4 b4) := by
          unfold goParseIP
          rw [hfs]
          dsimp only
          rw [if_pos rfl, hv4]
          rfl
        rw [hg]
        rfl
    · unfold isMappedIPv6Literal at h
      cases hv6 : parseIPv6Go t.data with
      | none => rw [hv6] at h; simp at h
      | some b6 =>
        rw [hv6] at h
        have hcond := of_decide_eq_true h
        have hfs := parseIPv6Go_firstSpecial t.data b6 hv6
        have hg : goParseIP t = some (GoIP.v6 b6) := by
          unfold goParseIP
          rw [hfs]
          dsimp only
          rw [if_neg (by decide), if_pos rfl, hv6]
          rfl
        rw [hg]
        dsimp only
        unfold To4
        dsimp only
        rw [if_pos hcond]
        rfl

/-- C6 counterexample: the IPv6 literal `::ffff:8.8.8.8` (an IPv4-mapped
IPv6 address) is accepted by the validator even though it is not an IPv4
dotted-quad literal, contradicting "every IPv6 literal ... is never
accepted". -/
theorem mapped_ipv6_accepted_c6_counterexample :
    acceptsBody "::ffff:8.8.8.8" = true ∧
    isIPv4Literal "::ffff:8.8.8.8" = false ∧
    isIPv6Literal "::ffff:8.8.8.8" = true := by
  decide

/-- C6 as amended: the resolver accepts a status-200 response body exactly
when its trimmed form parses as an IPv4 dotted-quad literal or as an
IPv4-mapped IPv6 literal; every other IPv6 literal and every malformed
string is rejected. -/
theorem ipv4_validation_amended_c6 (body : String) :
    acceptsBody body = true ↔
      (isIPv4Literal (trimSpace body) = true ∨
       isMappedIPv6Literal (trimSpace body) = true) := by
  unfold acceptsBody getIPFromService
  dsimp only
  rw [if_neg (by decide : ¬ ((200 : Int) ≠ 200))]
  by_cases he : trimSpace body = ""
  · rw [if_pos he, he]
    decide
  · rw [if_neg he]
    by_cases hv : isValidIPv4 (trimSpace body) = true
    · rw [if_neg (by simp [hv])]
      dsimp only
      constructor
      · intro _
        exact (isValidIPv4_iff (trimSpace body) (trimSpace_idem body)).mp hv
      · intro _
        rfl
    · have hvf : isValidIPv4 (trimSpace body) = false := by
        cases hb : isValidIPv4 (trimSpace body)
        · rfl
        · exact absurd hb hv
      rw [if_pos (by rw [hvf]; rfl)]
      dsimp only
      constructor
      · intro hf
        exact absurd hf (by simp)
      · intro hr
        exact absurd ((isValidIPv4_iff (trimSpace body) (trimSpace_idem body)).mpr hr) hv

/-- Witness for the amended C6: `" 8.8.8.8\n"` trims to the IPv4 literal
`8.8.8.8` and is accepted. -/
theorem ipv4_validation_amended_c6_witness :
    acceptsBody " 8.8.8.8\n" = true ↔
      (isIPv4Literal (trimSpace " 8.8.8.8\n") = true ∨
       isMappedIPv6Literal (trimSpace " 8.8.8.8\n") = true) :=
  ipv4_validation_amended_c6 " 8.8.8.8\n"
